import Mathlib

/-!
Shallow embedding of the zelix-lang/STL containers needed to settle the
frozen claims: the ring buffer and buffered ostream, the lazy vector, the
stream cursor, the owned string, the alphabetic trie and the shared_ptr
variants.  Every definition is translated from the C++ source under
src/include; machine integers are modelled by Nat (all quantities involved
stay far below 2^64, so size_t overflow never fires on the inputs
considered), the compile-time double GrowthFactor is modelled by an exact
rational (the concrete factors used below, 2.0, 1.5 and 1.8, are exactly
representable as doubles and all products computed stay exact, so the
rational and IEEE computations coincide), and C++ exceptions are modelled
by Except values.
-/

namespace ZelixSTL

/-! ### Ring buffer — src/include/zelix/container/ring_buffer.h

`ring_buffer<T, Max, UseHeap>` for a trivially-copyable element type
(`char` in the claims).  The backing array is modelled as a total function
`Nat → T` together with the write cursor `head`; indices `≥ Max` stand for
the memory adjacent to the array, so an out-of-bounds `memcpy` is visible
in the model instead of being undefined.  The source pointer `buf` of a
write is likewise a function `Nat → T`: indices `≥ count` are the bytes
that sit after the caller's buffer in memory. -/

structure RingBuffer (T : Type) where
  data : Nat → T
  head : Nat

/-- Embeds `ring_buffer::unsafe_copy(buf, count)` (lines 256-269):
`memcpy(data + head, buf, count * sizeof(T))`, i.e. `data[head + j] = buf[j]`
for `j < count`; `head` is not moved. -/
def RingBuffer.blockCopy (rb : RingBuffer T) (buf : Nat → T) (count : Nat) :
    RingBuffer T :=
  { rb with
    data := fun i =>
      if rb.head ≤ i ∧ i < rb.head + count then buf (i - rb.head) else rb.data i }

/-- Embeds `ring_buffer::write<true>(buf, count)` (lines 277-295), the
bounds-checked mode: if `head + count >= Max`, copy the trailing fit
`what_fits = Max - head`, reset `head` to 0, then copy
`count - what_fits` elements starting from `buf + count` (the code really
offsets the source by `count`, not by `what_fits`), and advance `head`;
otherwise a single copy. -/
def RingBuffer.write (Max : Nat) (rb : RingBuffer T) (buf : Nat → T)
    (count : Nat) : RingBuffer T :=
  if Max ≤ rb.head + count then
    let what_fits := Max - rb.head
    let rb1 := rb.blockCopy buf what_fits
    let rb2 : RingBuffer T := { rb1 with head := 0 }
    let rb3 := rb2.blockCopy (fun i => buf (count + i)) (count - what_fits)
    { rb3 with head := rb3.head + (count - what_fits) }
  else
    let rb1 := rb.blockCopy buf count
    { rb1 with head := rb1.head + count }

/-- Embeds `ring_buffer::write<false>(buf, count)`: no bounds check, a single
`unsafe_copy` at `head` followed by `head += count`. -/
def RingBuffer.writeU (rb : RingBuffer T) (buf : Nat → T) (count : Nat) :
    RingBuffer T :=
  let rb1 := rb.blockCopy buf count
  { rb1 with head := rb1.head + count }

/-- Embeds `ring_buffer::full()`: `head >= Max`. -/
def RingBuffer.full (Max : Nat) (rb : RingBuffer T) : Bool :=
  Max ≤ rb.head

/-! Concrete data for the claim-C1 scenario: `ring_buffer<char, 8>` with
`head = 6` and `write("ABCDE", 5)`.  The five supplied characters are
'A'..'E'; the bytes that happen to sit after the caller's buffer in memory
are modelled as 'X', 'Y', 'Z': the claim's expected output must not depend
on them. -/

def c1buf : Nat → Char := fun i =>
  if i = 0 then 'A'
  else if i = 1 then 'B'
  else if i = 2 then 'C'
  else if i = 3 then 'D'
  else if i = 4 then 'E'
  else if i = 5 then 'X'
  else if i = 6 then 'Y'
  else 'Z'

def c1start : RingBuffer Char := { data := fun _ => ' ', head := 6 }

def c1result : RingBuffer Char := RingBuffer.write 8 c1start c1buf 5

/-! ### Buffered ostream — src/include/zelix/container/io.h

`ostream<FD, Capacity, UseHeap>` buffers bytes in a
`ring_buffer<char, Capacity>` and flushes them to the file descriptor.
The state is the ring buffer plus `out`, the sequence of bytes that have
been handed to `write(2)` on the descriptor so far (in order). -/

structure OStream where
  buffer : RingBuffer Char
  out : List Char

/-- Embeds `ostream::flush()` (lines 131-144): a no-op when `buffer.pos()`
is 0, otherwise `write(FileDescriptor, buffer.ptr(), buffer.pos())`
followed by `buffer.flush()` (which only resets `head`). -/
def OStream.flush (st : OStream) : OStream :=
  if st.buffer.head = 0 then st
  else
    { buffer := { st.buffer with head := 0 },
      out := st.out ++ (List.range st.buffer.head).map st.buffer.data }

/-- Embeds the chunking loop of `ostream::do_write` (lines 69-86), entered
when `size > Capacity`: while `remaining > Capacity`, write the
`Capacity - buffer.pos()` bytes that fit via `write<false>`, advance the
source pointer, and flush if the buffer is full.  `off` is the current
offset of `ptr` into `data`.  The C loop can only terminate when
`Capacity > 0` (with `Capacity = 0` it spins forever), so the embedding
carries that hypothesis for termination. -/
def OStream.doWriteLoop (Cap : Nat) (hCap : 0 < Cap) (data : Nat → Char)
    (off remaining : Nat) (st : OStream) : OStream :=
  if _h : Cap < remaining then
    let space := Cap - st.buffer.head
    let st1 : OStream := { st with buffer := st.buffer.writeU (fun i => data (off + i)) space }
    let st2 := if st1.buffer.full Cap then st1.flush else st1
    OStream.doWriteLoop Cap hCap data (off + space) (remaining - space) st2
  else st
termination_by remaining + (if st.buffer.head = 0 then 0 else 1)
decreasing_by
  simp only [OStream.flush, RingBuffer.full, RingBuffer.writeU, RingBuffer.blockCopy,
    decide_eq_true_eq]
  repeat' split
  all_goals simp_all
  all_goals omega

/-- Embeds `ostream::do_write(data, size)` (lines 63-99): for
`size > Capacity` it runs the chunking loop and then RETURNS — the final
`remaining ≤ Capacity` bytes are neither buffered nor written; otherwise it
writes the whole input unchecked and flushes if the buffer became full. -/
def OStream.do_write (Cap : Nat) (hCap : 0 < Cap) (st : OStream)
    (data : Nat → Char) (size : Nat) : OStream :=
  if Cap < size then
    st.doWriteLoop Cap hCap data 0 size
  else
    let st1 : OStream := { st with buffer := st.buffer.writeU data size }
    if st1.buffer.full Cap then st1.flush else st1

/-- Embeds `ostream::~ostream()` (lines 260-263): an unconditional
`flush()`. -/
def OStream.dtor (st : OStream) : OStream :=
  st.flush

/-- A fresh ostream: empty ring buffer, nothing written to the descriptor
yet. -/
def OStream.new : OStream :=
  { buffer := { data := fun _ => ' ', head := 0 }, out := [] }

/-! Concrete data for claim C6: ten bytes inserted as one string.
`operator<<(string)` calls `do_write(handle.ptr(), handle.size())`. -/

def c6data : Nat → Char := fun i =>
  (("ABCDEFGHIJ".toList).getD i '?')

/-! ### Vector — src/include/zelix/container/vector.h

`vector<T, GrowthFactor, InitialCapacity, Allocator>` on the
trivially-copyable element path (the claims use `int`).  The state mirrors
the four fields `initialized_`, `data`, `size_`, `capacity_`; `data` is
`none` for a null pointer and otherwise holds the constructed prefix of
the storage (the first `size_` slots; the remaining capacity is
uninitialized and never read).  The compile-time `double GrowthFactor` is
modelled as the exact rational `gn / gd`: every finite double is such a
rational, and for the factors appearing in the claims (2.0, 1.5, 1.8) the
products `capacity_ * GrowthFactor` computed by the code are exact in
IEEE double arithmetic, so `static_cast<size_t>(capacity_ * GrowthFactor)`
(truncation toward zero of a non-negative value) is exactly the natural
number `capacity_ * gn / gd`. -/

structure Vec (T : Type) where
  inited : Bool
  data : Option (List T)
  size : Nat
  capacity : Nat
deriving DecidableEq

/-- Embeds the default constructor (lines 124-128): not initialized, null
data, size 0 — and `capacity_` is initialized to 10. -/
def Vec.mkNew : Vec T := ⟨false, none, 0, 10⟩

/-- Embeds `vector::init()` (lines 73-78): mark initialized, set
`capacity_ = InitialCapacity` (`c`), allocate that many uninitialized
slots (constructed prefix still empty). -/
def Vec.init (c : Nat) (v : Vec T) : Vec T :=
  { v with inited := true, capacity := c, data := some [] }

/-- The capacity computed on growth,
`static_cast<size_t>(capacity_ * GrowthFactor)` (line 229), for the growth
factor `gn / gd`. -/
def growCap (gn gd cap : Nat) : Nat :=
  cap * gn / gd

/-- Modelled from the spec's words for claim C4 (for comparison with
`growCap`): the claimed new capacity `⌈capacity × growth_factor⌉`. -/
def specCeilGrow (gn gd cap : Nat) : Nat :=
  Nat.ceil ((cap * gn : ℚ) / gd)

/-- Embeds `vector::resize(new_size)` (lines 85-96): allocate if `data` is
null, otherwise `Allocator::reallocate(data, size_, new_size)`, which for
trivially-copyable `T` preserves the live prefix up to the new length;
then set `capacity_ = new_size`. -/
def Vec.resize (v : Vec T) (new_size : Nat) : Vec T :=
  match v.data with
  | none => { v with data := some [], capacity := new_size }
  | some l => { v with data := some (l.take new_size), capacity := new_size }

/-- Embeds `vector::emplace_back` (lines 215-242): lazily `init()`, grow by
the factor when `size_ >= capacity_`, construct at `data[size_]`, increment
`size_`. -/
def Vec.emplace_back (gn gd c : Nat) (v : Vec T) (x : T) : Vec T :=
  let v1 := if v.inited then v else v.init c
  let v2 := if v1.capacity ≤ v1.size then v1.resize (growCap gn gd v1.capacity) else v1
  { v2 with data := some ((v2.data.getD []) ++ [x]), size := v2.size + 1 }

/-- Embeds `vector::pop_back` (lines 248-268): if `size_ > 0`, decrement
and destroy the removed slot (a no-op for trivially-destructible `T`);
when the size reaches 0 on an initialized vector, `destroy()` releases the
storage and the vector is reset to the lazy state
(`initialized_ = false`, `data = nullptr`, `capacity_ = 0`). -/
def Vec.pop_back (v : Vec T) : Vec T :=
  if 0 < v.size then
    let v1 : Vec T :=
      { v with size := v.size - 1, data := v.data.map (fun l => l.take (v.size - 1)) }
    if v1.size = 0 ∧ v1.inited then ⟨false, none, 0, 0⟩ else v1
  else v

/-- Embeds the move constructor `vector(vector&& other)` (lines 130-140):
steal all four fields, reset the source to
`(initialized_ = false, data = nullptr, size_ = 0, capacity_ = 0)`.
Returns (new vector, source after). -/
def Vec.moveCtor (v : Vec T) : Vec T × Vec T :=
  (⟨v.inited, v.data, v.size, v.capacity⟩, ⟨false, none, 0, 0⟩)

/-- Embeds the non-const-lvalue constructor `vector(vector& other)`
(lines 142-152): its body is identical to the move constructor — steal the
fields and zero the source.  Returns (new vector, source after). -/
def Vec.lvalCtor (v : Vec T) : Vec T × Vec T :=
  (⟨v.inited, v.data, v.size, v.capacity⟩, ⟨false, none, 0, 0⟩)

/-- Embeds copy assignment `operator=(const vector& other)`
(lines 154-185) for `this != &other`: destroy the current storage, copy
the three scalar fields, and if the source has a buffer allocate a fresh
one and copy the `size_` live elements into it (`memcpy` for trivial `T`,
per-element copy construction otherwise); the source is const and
untouched. -/
def Vec.copyAssign (_dst src : Vec T) : Vec T :=
  match src.data with
  | some l =>
      { inited := src.inited, size := src.size, capacity := src.capacity,
        data := some (l.take src.size) }
  | none =>
      { inited := src.inited, size := src.size, capacity := src.capacity,
        data := none }

/-- n repetitions of `push_back x` starting from a default-constructed
vector (`push_back` forwards to `emplace_back`, lines 192-207). -/
def Vec.pushN (gn gd c : Nat) (x : T) : Nat → Vec T
  | 0 => Vec.mkNew
  | n + 1 => (Vec.pushN gn gd c x n).emplace_back gn gd c x

/-- `push_back` of each list element in order. -/
def Vec.pushList (gn gd c : Nat) (v : Vec T) : List T → Vec T
  | [] => v
  | x :: xs => (v.emplace_back gn gd c x).pushList gn gd c xs

/-- Iterates of the code's growth map starting from the initial capacity:
`growIter gn gd c k` is the capacity after `k` reallocations. -/
def growIter (gn gd c : Nat) : Nat → Nat
  | 0 => c
  | k + 1 => growCap gn gd (growIter gn gd c k)

/-! Concrete states for the claim-C5 scenario
`vector<int, 2.0, 4>` (growth factor 2.0 = 2/1, initial capacity 4). -/

def c5s4 : Vec Int := Vec.mkNew.pushList 2 1 4 [1, 2, 3, 4]
def c5s5 : Vec Int := c5s4.emplace_back 2 1 4 5
def c5s0 : Vec Int := c5s5.pop_back.pop_back.pop_back.pop_back.pop_back
def c5s6 : Vec Int := c5s0.emplace_back 2 1 4 6

/-! ### Stream cursor — src/include/fluent/container/stream.h

`stream<T>`: a vector plus a cursor `pos_`.  C++ exceptions are modelled
by `Except`; the kinds mirror the four exception classes thrown across the
sources (`failed_alloc`, `uninitialized_memory`, `out_of_range`, and the
generic `exception`), each carrying its message. -/

inductive ExcKind where
  | failedAlloc
  | uninitMemory
  | outOfRange
  | generic
deriving DecidableEq

structure StreamC (T : Type) where
  data : Vec T
  pos : Nat
deriving DecidableEq

/-- Embeds `stream::set_pos(pos)` (lines 98-106): if `pos > data_.size()`
it throws the GENERIC `except::exception("Position out of bounds")` (not
`out_of_range`), and the throw happens before `pos_` is assigned, so the
stream object is unchanged; otherwise it sets `pos_ = pos`. -/
def StreamC.set_pos (s : StreamC T) (n : Nat) : Except (ExcKind × String) (StreamC T) :=
  if s.data.size < n then Except.error (ExcKind.generic, "Position out of bounds")
  else Except.ok { s with pos := n }

/-- Concrete stream over a two-element vector, for claim C9. -/
def c9stream : StreamC Int :=
  { data := ⟨true, some [10, 20], 2, 4⟩, pos := 0 }

/-! ### Owned string — src/include/zelix/container/owned_string.h

`string<GrowthFactor, Allocator>`: `buffer` is `none` for a null pointer
and otherwise the whole allocated block (`capacity` bytes, of which the
first `len` are the logical characters).  Uninitialized bytes are modelled
by a fixed placeholder character (they are never read by the operations
below).  The `double GrowthFactor` is again the exact rational
`gn / gd`. -/

structure OwnedString where
  buffer : Option (List Char)
  len : Nat
  max_capacity : Nat
  capacity : Nat
deriving DecidableEq

/-- Placeholder for a byte of uninitialized storage. -/
def padChar : Char := '#'

/-- Embeds the default constructor (lines 77-80): no storage, all fields
zero. -/
def OwnedString.mkDefault : OwnedString := ⟨none, 0, 0, 0⟩

/-- Embeds `string::reserve(required)` (lines 225-240): first allocation
takes `required + 1` bytes (one reserved for the NUL terminator); after
that, grow exactly to `len + required` when it exceeds `max_capacity`
(`reallocate()` sets `capacity = max_capacity + 1` and `realloc` keeps the
old block's bytes). -/
def OwnedString.reserve (s : OwnedString) (required : Nat) : OwnedString :=
  match s.buffer with
  | none =>
      { s with buffer := some (List.replicate (required + 1) padChar),
               capacity := required + 1, max_capacity := required }
  | some l =>
      if s.max_capacity < s.len + required then
        let mc := s.len + required
        let cap := mc + 1
        { s with max_capacity := mc, capacity := cap,
                 buffer := some (l.take cap ++ List.replicate (cap - l.length) padChar) }
      else s

/-- Embeds the `while (new_capacity < len + required)` loop of
`string::reserve_growth` (lines 215-219): repeatedly replace `x` by
`static_cast<size_t>(x * GrowthFactor)` until it reaches `target`.
Returns `none` when the C++ loop never exits (the iterate stops
increasing while still below the target). -/
def growLoop (gn gd target x : Nat) : Option Nat :=
  if _h : x < target then
    let y := x * gn / gd
    if _h2 : x < y then growLoop gn gd target y else none
  else some x
termination_by target - x
decreasing_by omega

/-- Embeds `string::reserve_growth(required)` (lines 200-223): first
allocation as in `reserve`; a no-op when `max_capacity > required + len`;
otherwise run the geometric loop starting from
`static_cast<size_t>(capacity * GrowthFactor)`, set `max_capacity` to the
result and `reallocate()`. -/
def OwnedString.reserveGrowth (gn gd : Nat) (s : OwnedString) (required : Nat) :
    Option OwnedString :=
  match s.buffer with
  | none =>
      some { s with buffer := some (List.replicate (required + 1) padChar),
                    capacity := required + 1, max_capacity := required }
  | some l =>
      if s.len + required < s.max_capacity then some s
      else
        match growLoop gn gd (s.len + required) (s.capacity * gn / gd) with
        | none => none
        | some nc =>
            let cap := nc + 1
            some { s with max_capacity := nc, capacity := cap,
                          buffer := some (l.take cap ++ List.replicate (cap - l.length) padChar) }

/-- Overwrite `cs.length` bytes of `l` starting at offset `p`
(`memcpy(l + p, cs, cs.length)`). -/
def listWrite (l : List Char) (p : Nat) (cs : List Char) : List Char :=
  l.take p ++ cs ++ l.drop (p + cs.length)

/-- Embeds `string::push(const char *c, size_t c_len)` (lines 257-262):
`reserve_growth(c_len)`, `memcpy(buffer + len, c, c_len)`,
`len += c_len`.  `none` when the growth loop diverges. -/
def OwnedString.pushMany (gn gd : Nat) (s : OwnedString) (cs : List Char) :
    Option OwnedString :=
  match s.reserveGrowth gn gd cs.length with
  | none => none
  | some s1 =>
      some { s1 with buffer := s1.buffer.map (fun l => listWrite l s1.len cs),
                     len := s1.len + cs.length }

/-- Embeds the constructor `string(const char *str, size_t s_len)`
(lines 100-104): `reserve(s_len)` then `push(str, s_len)`. -/
def mkString (gn gd : Nat) (cs : List Char) : Option OwnedString :=
  (OwnedString.mkDefault.reserve cs.length).pushMany gn gd cs

/-- Embeds `string::clear()` (lines 385-388): `len = 0`, storage kept. -/
def OwnedString.clear (s : OwnedString) : OwnedString :=
  { s with len := 0 }

/-- Embeds `string::operator==(const string&)` (lines 347-361): true when
both buffers are null; false when exactly one is null; otherwise false on
differing lengths and `memcmp(buffer, other.buffer, len) == 0`. -/
def OwnedString.beq (a b : OwnedString) : Bool :=
  match a.buffer, b.buffer with
  | none, none => true
  | none, some _ => false
  | some _, none => false
  | some la, some lb =>
      if a.len ≠ b.len then false
      else decide (la.take a.len = lb.take b.len)

/-- The concrete allocated string of the C7 counterexample:
`string("x", 1)` for the default growth factor 1.8 = 9/5 (buffer of 4
bytes holding 'x' and padding, `len = 1`). -/
def c7allocated : OwnedString :=
  ⟨some ['x', padChar, padChar, padChar], 1, 3, 4⟩

/-! ### Alphabetic trie — src/include/zelix/alphabetic_trie.h

`alphabetic_trie<OnlyLowercase>`: each node holds `is_end_of_word` and a
26-slot child-pointer array.  The child array is modelled as a total map
from the computed index (for ASCII letters `get_idx` lands in 0..25; the
C++ code performs no bounds check and indexing outside the array is
undefined, so the claims' word domain is ASCII letters). -/

inductive Trie where
  | node (is_end_of_word : Bool) (children : Nat → Option Trie)

/-- A freshly allocated node (`alphabetic_trie_node` constructor,
lines 61-73): not an end of word, all 26 child pointers null. -/
def Trie.emptyNode : Trie := .node false (fun _ => none)

/-- ASCII `tolower` as used by the trie: fold 'A'..'Z' down by 32. -/
def ctolower (c : Char) : Char :=
  if 'A' ≤ c ∧ c ≤ 'Z' then Char.ofNat (c.toNat + 32) else c

/-- Embeds `alphabetic_trie::get_idx(ch)` (lines 101-112): `ch - 'a'`
directly when `OnlyLowercase`, otherwise `tolower(ch) - 'a'`. -/
def get_idx (onlyLowercase : Bool) (c : Char) : Nat :=
  (if onlyLowercase then c else ctolower c).toNat - 'a'.toNat

/-- Embeds `alphabetic_trie::insert(word, n)` (lines 115-134): walk the
characters, allocating a fresh node wherever the child pointer is null,
and mark the final node as end of word. -/
def Trie.insertW (ol : Bool) : Trie → List Char → Trie
  | .node _ ch, [] => .node true ch
  | .node e ch, c :: rest =>
      let idx := get_idx ol c
      let child := (ch idx).getD Trie.emptyNode
      let child2 := child.insertW ol rest
      .node e (fun j => if j = idx then some child2 else ch j)

/-- Embeds `alphabetic_trie::search(word, n)` (lines 146-163): walk the
characters, failing on a null child, and report the final node's
`is_end_of_word`. -/
def Trie.searchW (ol : Bool) : Trie → List Char → Bool
  | .node e _, [] => e
  | .node _ ch, c :: rest =>
      match ch (get_idx ol c) with
      | none => false
      | some t => t.searchW ol rest

/-- A sequence of `insert` calls, in order. -/
def Trie.insertAll (ol : Bool) (t : Trie) : List (List Char) → Trie
  | [] => t
  | w :: ws => (t.insertW ol w).insertAll ol ws

/-! ### shared_ptr — the repository carries three variants:
src/include/zelix/shared_ptr.h, src/include/zelix/container/shared_ptr.h
and src/include/zelix/memory/shared_ptr.h.

The non-concurrent reference-count machinery is modelled with a heap of
control blocks: `objAlloc` / `cntAlloc` say whether the object and count
storage are live, `dtorRuns` counts executions of `~T` on the object, and
`cnt` is the value in the count cell.  A handle is `none` when its `ptr`
and `ref_count` fields are null (every constructor of all three classes
sets the two fields together, so they are null together in every reachable
state). -/

structure CtrlBlock where
  objAlloc : Bool
  dtorRuns : Nat
  cntAlloc : Bool
  cnt : Int
deriving DecidableEq

structure SPHeap where
  blocks : Nat → CtrlBlock
  next : Nat

abbrev SPtr := Option Nat

def SPHeap.upd (h : SPHeap) (i : Nat) (b : CtrlBlock) : SPHeap :=
  { h with blocks := fun j => if j = i then b else h.blocks j }

/-- Embeds `shared_ptr::destroy()` of container/shared_ptr.h
(lines 74-90): `Allocator::deallocate(ptr)` runs `~T` once and frees the
object storage, then `RefCountAllocator::deallocate(ref_count)` frees the
count cell. -/
def SPHeap.destroy (h : SPHeap) (i : Nat) : SPHeap :=
  let b := h.blocks i
  h.upd i { b with objAlloc := false, dtorRuns := b.dtorRuns + 1, cntAlloc := false }

/-- Embeds the owning constructor (container/shared_ptr.h lines 93-135):
allocate the object and a count cell initialized to 1. -/
def SPHeap.construct (h : SPHeap) : SPHeap × SPtr :=
  ({ blocks := fun j => if j = h.next then ⟨true, 0, true, 1⟩ else h.blocks j,
     next := h.next + 1 }, some h.next)

/-- Embeds the copy constructor `shared_ptr(shared_ptr&)`
(container/shared_ptr.h lines 145-165): share the fields and increment the
count when `ref_count` is non-null. -/
def copyCtor (h : SPHeap) (p : SPtr) : SPHeap × SPtr :=
  match p with
  | none => (h, none)
  | some i =>
      let b := h.blocks i
      (h.upd i { b with cnt := b.cnt + 1 }, some i)

/-- Embeds the move constructor `shared_ptr(shared_ptr&&)` of
container/shared_ptr.h (lines 137-143): adopt the fields and null the
source; the count is NOT touched.  Returns (heap, new handle, source
after). -/
def moveCtorContainer (h : SPHeap) (p : SPtr) : SPHeap × SPtr × SPtr :=
  (h, p, none)

/-- Embeds the move constructor `shared_ptr(shared_ptr&&)` of
memory/shared_ptr.h (lines 94-100): same as the container variant —
transfer the fields, null the source, leave the count alone. -/
def moveCtorMemoryFile (h : SPHeap) (p : SPtr) : SPHeap × SPtr × SPtr :=
  (h, p, none)

/-- Embeds the move constructor `shared_ptr(shared_ptr&&)` of
zelix/shared_ptr.h (lines 168-172): copy the fields WITHOUT nulling the
source, then `add_ref_count()` increments the shared count — afterwards
both handles own the object. -/
def moveCtorZelix (h : SPHeap) (p : SPtr) : SPHeap × SPtr × SPtr :=
  match p with
  | none => (h, none, none)
  | some i =>
      let b := h.blocks i
      (h.upd i { b with cnt := b.cnt + 1 }, some i, some i)

/-- Embeds move assignment `operator=(shared_ptr&&)`
(container/shared_ptr.h lines 167-198; zelix/shared_ptr.h lines 222-249
agree), for `this != &other`: decrement the target's old count (destroying
on 0), adopt the source's fields, null the source.  Returns (heap, target
after, source after). -/
def moveAssign (h : SPHeap) (target src : SPtr) : SPHeap × SPtr × SPtr :=
  let h1 := match target with
    | none => h
    | some i =>
        let b := h.blocks i
        let b1 := { b with cnt := b.cnt - 1 }
        if b1.cnt = 0 then (h.upd i b1).destroy i else h.upd i b1
  (h1, src, none)

/-- Embeds `~shared_ptr()` of container/shared_ptr.h (lines 215-231):
when `ref_count` is non-null, decrement the count and `destroy()` on
reaching 0. -/
def dtorContainer (h : SPHeap) (p : SPtr) : SPHeap :=
  match p with
  | none => h
  | some i =>
      let b := h.blocks i
      let b1 := { b with cnt := b.cnt - 1 }
      if b1.cnt = 0 then (h.upd i b1).destroy i else h.upd i b1

/-- A heap whose block 0 is an owning control block with count 5, for the
C2 counterexample. -/
def c2heap : SPHeap := { blocks := fun _ => ⟨true, 0, true, 5⟩, next := 1 }

/-! The destructor of src/include/zelix/memory/shared_ptr.h needs a
pointer-level model, because its first statement performs pointer
arithmetic on `ref_count`: memory is a map from int-cell addresses to
stored values, `refAddr` is the current value of the `ref_count` pointer
field, and the object bookkeeping mirrors `CtrlBlock`. -/

structure MemSP where
  mem : Int → Int
  refAddr : Int
  objAlive : Bool
  dtorRuns : Nat
  objFreed : Bool
  cntFreedAt : Option Int

/-- Embeds `~shared_ptr()` of memory/shared_ptr.h (lines 162-169).  Its
first statement is `*--ref_count;`: it PRE-DECREMENTS THE POINTER and
discards the loaded value — the stored count is never modified.  The
following `if (*ref_count == 0)` therefore reads the int one slot below
the count cell, and when that unrelated word is 0, `destroy()` runs `~T`,
frees the object and frees the cell the (already decremented) `ref_count`
now points to. -/
def memoryFileDtor (s : MemSP) : MemSP :=
  let s1 := { s with refAddr := s.refAddr - 1 }
  if s1.mem s1.refAddr = 0 then
    { s1 with objAlive := false, dtorRuns := s1.dtorRuns + 1,
              objFreed := true, cntFreedAt := some s1.refAddr }
  else s1

/-- Memory for the C3 failing input: the count cell at address 100 holds 1
(sole owner); the adjacent word at address 99 holds 7. -/
def c3memA : Int → Int := fun a => if a = 100 then 1 else 7

/-- Same, but the adjacent word happens to be 0. -/
def c3memB : Int → Int := fun a => if a = 100 then 1 else 0

end ZelixSTL

namespace ZelixSTL

/-- C1: the split write of `ring_buffer::write` at the scenario of the claim
(`Capacity = 8`, `head = 6`, `write("ABCDE", 5)`).  Positions 6, 7 do get
'A', 'B' and `head` ends at 3 as the claim states, but the wrapped-around
positions 0, 1, 2 receive the three bytes sitting AFTER the 5-element
source buffer (`buf[5]`, `buf[6]`, `buf[7]`, here 'X', 'Y', 'Z'), because
the second copy reads from `buf + count` instead of `buf + what_fits`; they
do not receive 'C', 'D', 'E' as the claim requires. -/
theorem ring_buffer_split_write_bug :
    c1result.head = 3 ∧
    c1result.data 6 = 'A' ∧ c1result.data 7 = 'B' ∧
    c1result.data 0 = c1buf 5 ∧ c1result.data 1 = c1buf 6 ∧
    c1result.data 2 = c1buf 7 ∧
    ¬(c1result.data 0 = 'C' ∧ c1result.data 1 = 'D' ∧ c1result.data 2 = 'E') := by
  decide

/-- C6: inserting the 10-byte string "ABCDEFGHIJ" into `ostream<FD, 1024>`
and destroying the stream does put exactly those 10 bytes on the
descriptor, as in the claim's example; but for `ostream<FD, 8>` the same
insertion followed by destruction yields only the first 8 bytes: the
chunking loop of `do_write` returns after writing whole slabs and the
final `remaining ≤ Capacity` bytes ("IJ") are silently dropped, so the
claim's universal "no byte of it is lost" fails. -/
theorem ostream_chunking_drops_tail :
    (((OStream.new.do_write 1024 (by decide) c6data 10)).dtor).out
        = "ABCDEFGHIJ".toList ∧
    (((OStream.new.do_write 8 (by decide) c6data 10)).dtor).out
        = "ABCDEFGH".toList ∧
    (((OStream.new.do_write 8 (by decide) c6data 10)).dtor).out
        ≠ "ABCDEFGHIJ".toList := by
  refine ⟨by decide, ?_, ?_⟩ <;>
  · simp only [OStream.new, OStream.do_write, OStream.dtor]
    norm_num
    rw [OStream.doWriteLoop]
    norm_num [RingBuffer.writeU, RingBuffer.blockCopy, RingBuffer.full, OStream.flush]
    rw [OStream.doWriteLoop]
    norm_num
    decide

/-- Helper: `emplace_back` on an initialized vector whose buffer holds the
list `l`: either the growth branch (capacity reached) or the plain append
branch. -/
theorem vec_emplace_full_state (gn gd c : Nat) (x : T) (l : List T) (n cap : Nat) :
    Vec.emplace_back gn gd c (⟨true, some l, n, cap⟩ : Vec T) x =
      if cap ≤ n then
        ⟨true, some (l.take (growCap gn gd cap) ++ [x]), n + 1, growCap gn gd cap⟩
      else ⟨true, some (l ++ [x]), n + 1, cap⟩ := by
  by_cases h : cap ≤ n <;> simp [Vec.emplace_back, Vec.resize, h]

/-- Helper: if the growth map strictly increases from `c` on, every iterate
stays at least `c`. -/
theorem growIter_lower (gn gd c : Nat) (hg : ∀ m, c ≤ m → m < growCap gn gd m)
    (k : Nat) : c ≤ growIter gn gd c k := by
  induction k with
  | zero => exact Nat.le_refl c
  | succ k ih => exact Nat.le_of_lt (Nat.lt_of_le_of_lt ih (hg _ ih))

/-- Helper: the exact state after `n ≥ 1` push_backs of `x` into a fresh
`vector<T, gn/gd, c>`: size `n`, content `n` copies of `x`, and capacity
the first iterate of the growth map that is `≥ n`. -/
theorem vec_pushN_state (gn gd c : Nat) (x : T) (hc : 0 < c)
    (hg : ∀ m, c ≤ m → m < growCap gn gd m) :
    ∀ n, 1 ≤ n → ∃ k,
      Vec.pushN gn gd c x n = ⟨true, some (List.replicate n x), n, growIter gn gd c k⟩ ∧
      n ≤ growIter gn gd c k ∧ ∀ j < k, growIter gn gd c j < n := by
  intro n
  induction n with
  | zero => intro h; exact absurd h (by omega)
  | succ n ih =>
    intro _
    rcases Nat.eq_zero_or_pos n with hn0 | hpos
    · subst hn0
      refine ⟨0, ?_, hc, by omega⟩
      show Vec.emplace_back gn gd c Vec.mkNew x = _
      simp [Vec.emplace_back, Vec.mkNew, Vec.init, Nat.not_le.mpr hc, growIter]
    · obtain ⟨k, hst, hle, hmin⟩ := ih hpos
      have hck : c ≤ growIter gn gd c k := growIter_lower gn gd c hg k
      have hgrow : growIter gn gd c k < growCap gn gd (growIter gn gd c k) := hg _ hck
      by_cases hfull : growIter gn gd c k ≤ n
      · have heq : growIter gn gd c k = n := Nat.le_antisymm hfull hle
        refine ⟨k + 1, ?_, ?_, ?_⟩
        · show (Vec.pushN gn gd c x n).emplace_back gn gd c x = _
          rw [hst, vec_emplace_full_state, if_pos hfull]
          have htake : (List.replicate n x).take (growCap gn gd (growIter gn gd c k))
              = List.replicate n x := by
            apply List.take_of_length_le
            simp only [List.length_replicate]
            omega
          rw [htake, ← List.replicate_succ']
          simp [growIter]
        · show n + 1 ≤ growIter gn gd c (k + 1)
          simp only [growIter]
          omega
        · intro j hj
          rcases Nat.lt_or_ge j k with h1 | h1
          · exact Nat.lt_succ_of_lt (hmin j h1)
          · have hjk : j = k := by omega
            subst hjk
            omega
      · have hlt : n < growIter gn gd c k := Nat.lt_of_not_le hfull
        refine ⟨k, ?_, by omega, fun j hj => Nat.lt_succ_of_lt (hmin j hj)⟩
        show (Vec.pushN gn gd c x n).emplace_back gn gd c x = _
        rw [hst, vec_emplace_full_state, if_neg (by omega)]
        rw [← List.replicate_succ']

/-- C4 counterexample: for `vector<int, 1.5, 3>` (growth factor 1.5 = 3/2,
exactly representable as a double, initial capacity 3) the fourth
push_back grows the capacity to `static_cast<size_t>(3 * 1.5) = 4`,
whereas the claim demands `⌈3 × 1.5⌉ = 5` (and a capacity strictly
greater via the claimed +1 floor would be ≥ 5 as well): the code
truncates instead of taking the ceiling and enforces no floor. -/
theorem vector_growth_ceiling_cex :
    (Vec.pushN 3 2 3 (0 : Int) 4).capacity = 4 ∧
    specCeilGrow 3 2 3 = 5 ∧
    (Vec.pushN 3 2 3 (0 : Int) 4).capacity ≠ specCeilGrow 3 2 3 := by
  have h1 : (Vec.pushN 3 2 3 (0 : Int) 4).capacity = 4 := by decide
  have h2 : specCeilGrow 3 2 3 = 5 := by
    simp only [specCeilGrow, Nat.cast_ofNat]
    rw [show (3 : ℚ) * 3 / 2 = 9 / 2 by norm_num]
    rw [Nat.ceil_eq_iff (by norm_num)]
    norm_num
  exact ⟨h1, h2, by rw [h1, h2]; omega⟩

/-- C4 (amended): when `size == capacity`, the next `emplace_back`
reallocates to `⌊capacity × growth_factor⌋` (C++ truncation; no ceiling
and no +1 floor is enforced, so the capacity need not strictly grow for
growth factors whose product truncates back to the capacity);
consequently, for trivial element types with initial capacity
`c > 0` and a growth factor `gn/gd` under which the growth map strictly
increases from `c` on, after `n ≥ 1` push_backs the capacity is the
smallest iterate `⌊…⌊c·g⌋…·g⌋` that is `≥ n`. -/
theorem vector_growth_amended (gn gd c : Nat) (x : Int) (hc : 0 < c)
    (hg : ∀ m, c ≤ m → m < growCap gn gd m) :
    (∀ (cap : Nat) (l : List Int),
        (Vec.emplace_back gn gd c (⟨true, some l, cap, cap⟩ : Vec Int) x).capacity
          = growCap gn gd cap) ∧
    (∀ n, 1 ≤ n → ∃ k,
        (Vec.pushN gn gd c x n).capacity = growIter gn gd c k ∧
        n ≤ growIter gn gd c k ∧ ∀ j < k, growIter gn gd c j < n) := by
  constructor
  · intro cap l
    rw [vec_emplace_full_state, if_pos (Nat.le_refl cap)]
  · intro n hn
    obtain ⟨k, hst, hk1, hk2⟩ := vec_pushN_state gn gd c x hc hg n hn
    exact ⟨k, by rw [hst], hk1, hk2⟩

/-- Witness for C4 (amended), at `vector<int, 2.0, 4>` and `n = 5` pushes. -/
theorem vector_growth_amended_witness :
    (Vec.emplace_back 2 1 4 (⟨true, some [1, 1, 1, 1], 4, 4⟩ : Vec Int) 1).capacity
      = growCap 2 1 4 ∧
    ∃ k, (Vec.pushN 2 1 4 (0 : Int) 5).capacity = growIter 2 1 4 k ∧
      5 ≤ growIter 2 1 4 k ∧ ∀ j < k, growIter 2 1 4 j < 5 := by
  have hg : ∀ m, 4 ≤ m → m < growCap 2 1 m := by
    intro m hm
    simp [growCap]
    omega
  exact ⟨(vector_growth_amended 2 1 4 (1 : Int) (by decide) hg).1 4 [1, 1, 1, 1],
    (vector_growth_amended 2 1 4 (0 : Int) (by decide) hg).2 5 (by decide)⟩

/-- C5: `pop_back` that brings the size to 0 deallocates the storage and
resets the vector to the lazy uninitialized state (`initialized_ = false`,
`data = nullptr`, `capacity_ = 0`); an insertion into an uninitialized
vector allocates exactly `InitialCapacity` slots; and the concrete
`vector<int, 2.0, 4>` scenario: four pushes give capacity 4, the fifth
gives capacity 8 with elements [1..5], five pop_backs release the storage,
and a sixth push yields capacity 4 and size 1. -/
theorem vector_pop_to_zero_resets :
    (∀ v : Vec Int, v.inited = true → v.size = 1 → v.pop_back = ⟨false, none, 0, 0⟩) ∧
    (∀ (gn gd c : Nat) (v : Vec Int) (x : Int),
        0 < c → v.inited = false → v.size = 0 →
        v.emplace_back gn gd c x = ⟨true, some [x], 1, c⟩) ∧
    (c5s4.capacity = 4 ∧ c5s4.size = 4 ∧
      c5s5.capacity = 8 ∧ c5s5.size = 5 ∧ c5s5.data = some [1, 2, 3, 4, 5] ∧
      c5s0 = ⟨false, none, 0, 0⟩ ∧
      c5s6 = ⟨true, some [6], 1, 4⟩) := by
  refine ⟨?_, ?_, by decide⟩
  · intro v hi hs
    obtain ⟨vi, vd, vs, vc⟩ := v
    simp only at hi hs
    subst hi hs
    simp [Vec.pop_back]
  · intro gn gd c v x hc hi hs
    obtain ⟨vi, vd, vs, vc⟩ := v
    simp only at hi hs
    subst hi hs
    simp [Vec.emplace_back, Vec.init, Nat.not_le.mpr hc]

/-- Witness for C5: a concrete size-1 vector resets on `pop_back`, and a
concrete uninitialized `vector<int, 2.0, 4>` allocates capacity 4 on the
first push. -/
theorem vector_pop_to_zero_resets_witness :
    (⟨true, some [(7 : Int)], 1, 4⟩ : Vec Int).pop_back = ⟨false, none, 0, 0⟩ ∧
    (⟨false, none, 0, 10⟩ : Vec Int).emplace_back 2 1 4 (9 : Int) = ⟨true, some [9], 1, 4⟩ :=
  ⟨vector_pop_to_zero_resets.1 _ rfl rfl,
    vector_pop_to_zero_resets.2.1 2 1 4 _ 9 (by decide) rfl rfl⟩

/-- C9 counterexample: on a stream over a size-2 vector, `set_pos(3)`
throws the library's GENERIC exception (`except::exception`, message
"Position out of bounds"), which is a different error kind than
`OutOfRange` — the claim names the wrong exception. -/
theorem stream_set_pos_generic_cex :
    c9stream.set_pos 3 = Except.error (ExcKind.generic, "Position out of bounds") ∧
    ExcKind.generic ≠ ExcKind.outOfRange :=
  ⟨rfl, by decide⟩

/-- C9 (amended): `set_pos(n)` with `n > size` throws the generic
`except::exception("Position out of bounds")` (not `OutOfRange`), leaving
the stream unchanged (the throw precedes the assignment to `pos_`), and
with `n ≤ size` it succeeds and sets the position to `n`. -/
theorem stream_set_pos_amended (T : Type) (s : StreamC T) (n : Nat) :
    (s.data.size < n →
      s.set_pos n = Except.error (ExcKind.generic, "Position out of bounds")) ∧
    (n ≤ s.data.size → s.set_pos n = Except.ok ⟨s.data, n⟩) := by
  constructor
  · intro h
    simp [StreamC.set_pos, h]
  · intro h
    simp [StreamC.set_pos, Nat.not_lt.mpr h]

/-- Witness for C9 (amended), at the concrete size-2 stream with `n = 3`
(throws) and `n = 2` (succeeds). -/
theorem stream_set_pos_amended_witness :
    c9stream.set_pos 3 = Except.error (ExcKind.generic, "Position out of bounds") ∧
    c9stream.set_pos 2 = Except.ok ⟨c9stream.data, 2⟩ :=
  ⟨(stream_set_pos_amended Int c9stream 3).1 (by decide),
    (stream_set_pos_amended Int c9stream 2).2 (by decide)⟩

/-- C10: the non-const-lvalue constructor `vector(vector&)` does not copy:
it produces exactly the pair (stolen fields, zeroed source), is
extensionally identical to the move constructor, and only copy assignment
`operator=(const vector&)` produces a fresh element-wise copy of the
source's live elements (source unchanged). -/
theorem vector_lvalue_ctor_moves (T : Type) :
    (∀ v : Vec T,
        Vec.lvalCtor v = (⟨v.inited, v.data, v.size, v.capacity⟩, ⟨false, none, 0, 0⟩)) ∧
    (∀ v : Vec T, Vec.lvalCtor v = Vec.moveCtor v) ∧
    (∀ dst src : Vec T,
        (Vec.copyAssign dst src).inited = src.inited ∧
        (Vec.copyAssign dst src).size = src.size ∧
        (Vec.copyAssign dst src).capacity = src.capacity ∧
        (Vec.copyAssign dst src).data = src.data.map (fun l => l.take src.size)) := by
  refine ⟨fun v => rfl, fun v => rfl, fun dst src => ?_⟩
  cases h : src.data <;> simp [Vec.copyAssign, h]

/-- Helper: the string growth loop exits immediately when the entry value
already reaches the target. -/
theorem growLoop_of_ge (gn gd target x : Nat) (h : target ≤ x) :
    growLoop gn gd target x = some x := by
  rw [growLoop]
  simp [Nat.not_lt.mpr h]

/-- C7 counterexample: a default-constructed string (null buffer, `len` 0)
compared with `string("x", 1)` cleared to length 0 (allocated buffer,
`len` 0): both are empty, yet `operator==` returns false, because the
code's second branch rejects any pair in which exactly one buffer is null
before ever comparing lengths or bytes. -/
theorem string_empty_eq_allocation_cex :
    mkString 9 5 ['x'] = some c7allocated ∧
    OwnedString.mkDefault.len = 0 ∧ (c7allocated.clear).len = 0 ∧
    OwnedString.beq OwnedString.mkDefault (c7allocated.clear) = false := by
  refine ⟨?_, rfl, rfl, rfl⟩
  have h1 : OwnedString.mkDefault.reserve 1 =
      ⟨some [padChar, padChar], 0, 1, 2⟩ := by decide
  have h2 : growLoop 9 5 1 3 = some 3 := growLoop_of_ge 9 5 1 3 (by decide)
  show (OwnedString.mkDefault.reserve 1).pushMany 9 5 ['x'] = some c7allocated
  rw [h1]
  simp only [OwnedString.pushMany, OwnedString.reserveGrowth]
  norm_num [h2]
  decide

/-- C7 (amended): `operator==` on owned strings is byte-wise only between
two strings whose buffers are both null or both allocated: `a == b` holds
iff both buffers are null, or both are allocated with equal `len` and
equal first-`len` bytes.  When exactly one of the two has an allocated
buffer the comparison is false even if both lengths are 0 — in
particular, a default-constructed string does NOT equal an allocated
string cleared to length 0. -/
theorem string_eq_amended (a b : OwnedString) :
    OwnedString.beq a b = true ↔
      ((a.buffer = none ∧ b.buffer = none) ∨
        (∃ la lb, a.buffer = some la ∧ b.buffer = some lb ∧
          a.len = b.len ∧ la.take a.len = lb.take b.len)) := by
  obtain ⟨ab, al, am, ac⟩ := a
  obtain ⟨bb, bl, bm, bc⟩ := b
  cases ab <;> cases bb <;> simp [OwnedString.beq]

/-- Helper: searching any word in a freshly allocated node fails. -/
theorem searchW_emptyNode (ol : Bool) (w : List Char) :
    Trie.searchW ol Trie.emptyNode w = false := by
  cases w <;> simp [Trie.searchW, Trie.emptyNode]

/-- Helper: searching after one insertion succeeds exactly when the
searched word has the same child-index sequence as the inserted word or
was already found before the insertion. -/
theorem searchW_insertW (ol : Bool) (v : List Char) :
    ∀ (t : Trie) (w : List Char),
      Trie.searchW ol (t.insertW ol v) w = true ↔
        (v.map (get_idx ol) = w.map (get_idx ol) ∨ Trie.searchW ol t w = true) := by
  induction v with
  | nil =>
    intro t w
    cases t with
    | node e ch =>
      cases w with
      | nil => simp [Trie.insertW, Trie.searchW]
      | cons d w' => simp [Trie.insertW, Trie.searchW]
  | cons c v' ih =>
    intro t w
    cases t with
    | node e ch =>
      cases w with
      | nil => simp [Trie.insertW, Trie.searchW]
      | cons d w' =>
        by_cases h : get_idx ol d = get_idx ol c
        · simp only [h, Trie.insertW, Trie.searchW, List.map_cons]
          cases hch : ch (get_idx ol c) with
          | none => simp [hch, ih, searchW_emptyNode]
          | some u => simp [hch, ih]
        · have h' : ¬ get_idx ol c = get_idx ol d := fun hh => h hh.symm
          simp [Trie.insertW, Trie.searchW, h, h']

/-- C8 counterexample: in the case-folding trie (`OnlyLowercase = false`),
after the single call `insert("ab")`, `search("AB")` returns true although
`insert("AB")` was never called — `tolower` folding identifies the two
words, refuting the claimed "search(w) true iff insert(w) was called". -/
theorem trie_search_folding_cex :
    Trie.searchW false
        (Trie.insertAll false Trie.emptyNode [['a', 'b']]) ['A', 'B'] = true ∧
    (['A', 'B'] : List Char) ∉ ([['a', 'b']] : List (List Char)) := by
  constructor
  · decide
  · decide

/-- C8 (amended): `search(w)` returns true iff some word `v` with
`insert(v)` called (there is no deletion) has the same child-index
sequence as `w` under `get_idx` — i.e. equals `w` after the optional
`tolower` folding and the `- 'a'` mapping into 0..25; when `OnlyLowercase`
is set and all words are lowercase ASCII letters this reduces to
`insert(w)` having been called at least once. -/
theorem trie_search_amended (ol : Bool) (ws : List (List Char)) (w : List Char) :
    Trie.searchW ol (Trie.insertAll ol Trie.emptyNode ws) w = true ↔
      ∃ v ∈ ws, v.map (get_idx ol) = w.map (get_idx ol) := by
  have key : ∀ t, Trie.searchW ol (Trie.insertAll ol t ws) w = true ↔
      ((∃ v ∈ ws, v.map (get_idx ol) = w.map (get_idx ol)) ∨
        Trie.searchW ol t w = true) := by
    induction ws with
    | nil => intro t; simp [Trie.insertAll]
    | cons v ws ih =>
      intro t
      rw [Trie.insertAll, ih, searchW_insertW]
      simp only [List.mem_cons]
      constructor
      · rintro (⟨u, hu, he⟩ | h | h)
        · exact Or.inl ⟨u, Or.inr hu, he⟩
        · exact Or.inl ⟨v, Or.inl rfl, h⟩
        · exact Or.inr h
      · rintro (⟨u, hu | hu, he⟩ | h)
        · subst hu; exact Or.inr (Or.inl he)
        · exact Or.inl ⟨u, hu, he⟩
        · exact Or.inr (Or.inr h)
  simpa [searchW_emptyNode] using key Trie.emptyNode

/-- C2 counterexample: move-constructing from an owning handle of the
shared_ptr in container/shared_ptr.h (block 0, count 5): the new handle
adopts the block, the source is left null, and the count stays 5 — the
claim's "both p and q are owning with count k+1" is false here. -/
theorem shared_ptr_move_ctor_cex :
    (moveCtorContainer c2heap (some 0)).2.1 = some 0 ∧
    (moveCtorContainer c2heap (some 0)).2.2 = none ∧
    ((moveCtorContainer c2heap (some 0)).1.blocks 0).cnt = 5 ∧
    ¬ (((moveCtorContainer c2heap (some 0)).2.2).isSome = true ∧
        ((moveCtorContainer c2heap (some 0)).1.blocks 0).cnt = 5 + 1) := by
  refine ⟨rfl, rfl, rfl, ?_⟩
  decide

/-- C2 (amended): the three shared_ptr variants disagree.  For the
shared_ptr of zelix/shared_ptr.h, move construction increments the count
and leaves BOTH handles owning (count k+1); for the shared_ptr of
container/shared_ptr.h and of memory/shared_ptr.h, move construction
instead transfers ownership exactly like move assignment: the new handle
adopts the object and count, the source is left in the null state, and
the count is not incremented.  Move assignment (all variants) transfers
without incrementing. -/
theorem shared_ptr_move_semantics_amended (h : SPHeap) (i : Nat) (k : Int)
    (hk : (h.blocks i).cnt = k) :
    (((moveCtorZelix h (some i)).2.1 = some i) ∧
      ((moveCtorZelix h (some i)).2.2 = some i) ∧
      (((moveCtorZelix h (some i)).1.blocks i).cnt = k + 1)) ∧
    ((moveCtorContainer h (some i)) = (h, some i, none)) ∧
    ((moveCtorMemoryFile h (some i)) = (h, some i, none)) ∧
    (((moveAssign h none (some i)).1.blocks i).cnt = k ∧
      (moveAssign h none (some i)).2.1 = some i ∧
      (moveAssign h none (some i)).2.2 = none) := by
  refine ⟨⟨rfl, rfl, ?_⟩, rfl, rfl, ?_, rfl, rfl⟩
  · simp [moveCtorZelix, SPHeap.upd, hk]
  · simp [moveAssign, hk]

/-- Witness for C2 (amended), at the concrete heap whose block 0 carries
count 5. -/
theorem shared_ptr_move_semantics_amended_witness :
    (((moveCtorZelix c2heap (some 0)).2.1 = some 0) ∧
      ((moveCtorZelix c2heap (some 0)).2.2 = some 0) ∧
      (((moveCtorZelix c2heap (some 0)).1.blocks 0).cnt = 5 + 1)) ∧
    ((moveCtorContainer c2heap (some 0)) = (c2heap, some 0, none)) ∧
    ((moveCtorMemoryFile c2heap (some 0)) = (c2heap, some 0, none)) ∧
    (((moveAssign c2heap none (some 0)).1.blocks 0).cnt = 5 ∧
      (moveAssign c2heap none (some 0)).2.1 = some 0 ∧
      (moveAssign c2heap none (some 0)).2.2 = none) :=
  shared_ptr_move_semantics_amended c2heap 0 5 rfl

/-- C3: evaluation of the memory/shared_ptr.h destructor at the claim's
last-owner input (sole owner, count cell at address 100 holding 1).
Because the destructor executes `*--ref_count;` — decrementing the
POINTER, not the count — the count cell still holds 1 afterwards, and:
with the adjacent word at address 99 non-zero, `~T` never runs and nothing
is freed (the object leaks); with the adjacent word zero, destruction runs
even though the count never reached 0 and the "count storage" freed is the
wrong cell, address 99.  Either way the claim's "count transitions 1 to 0,
the destructor runs exactly once, and both storages are released" is not
what the code does. -/
theorem shared_ptr_memory_dtor_bug :
    ((memoryFileDtor ⟨c3memA, 100, true, 0, false, none⟩).dtorRuns = 0 ∧
      (memoryFileDtor ⟨c3memA, 100, true, 0, false, none⟩).objAlive = true ∧
      (memoryFileDtor ⟨c3memA, 100, true, 0, false, none⟩).objFreed = false ∧
      (memoryFileDtor ⟨c3memA, 100, true, 0, false, none⟩).mem 100 = 1) ∧
    ((memoryFileDtor ⟨c3memB, 100, true, 0, false, none⟩).dtorRuns = 1 ∧
      (memoryFileDtor ⟨c3memB, 100, true, 0, false, none⟩).mem 100 = 1 ∧
      (memoryFileDtor ⟨c3memB, 100, true, 0, false, none⟩).cntFreedAt = some 99) := by
  decide

end ZelixSTL
